import Mathlib

/-!
# Verification of the InvoxAI ingestion / dataset / reclaim core

A shallow embedding of the Rust command layer of the repository
(`src-tauri/src/commands*.rs`, `src-tauri/src/services/*.rs`) together with
theorems settling the frozen specification claims.

Modelling conventions:
* SQLite tables are association lists of rows; the `files` table carries the
  columns touched by the embedded operations.
* The filesystem is an association list from path strings to byte lists
  (bytes as `Nat`).
* `Result<T, String>` becomes `Except String T`; operations that mutate
  persistent state return the new state explicitly.
* Externally generated values (blake3 digests, UUIDs) enter as parameters of
  the embedded functions.
-/

namespace InvoxAI

/-- One row of the `files` table (File Index), as used by the command layer:
`id TEXT PRIMARY KEY, hash_sha256 TEXT UNIQUE, file_name, stored_path,
size_bytes, parsed_details`. -/
structure FileRowDb where
  id : String
  hash_sha256 : String
  file_name : String
  stored_path : String
  size_bytes : Nat
  parsed_details : Option String
deriving DecidableEq

/-- One row of the `task` table (UnitOfWork): name, status and the JSON array
of associated file ids, with its cached length. -/
structure TaskRow where
  id : Nat
  name : String
  status : String
  files_associated : List String
  file_count : Nat
deriving DecidableEq

/-- One directory entry of the Content Store directory as seen by
`fs::read_dir`: its name, size, whether it is a plain file, and whether the
underlying `fs::remove_file` / `fs::remove_dir_all` call would succeed. -/
structure DirEntry where
  name : String
  size : Nat
  is_file : Bool
  removable : Bool
deriving DecidableEq

/-- The persistent state visible to `storage_operations.rs`: the Content Store
directory listing plus the database tables.  `clear_processed_files` in the
source touches only the directory; the tables are carried to express claims
about referenced files. -/
structure AppState where
  storage : List DirEntry
  tasks : List TaskRow
  filesDb : List FileRowDb
deriving DecidableEq

/-- `StorageStats` of `storage_operations.rs`. -/
structure StorageStats where
  path : String
  total_bytes : Nat
  file_count : Nat
deriving DecidableEq

/-- The Content Store directory path (`db::storage_dir()`), an opaque constant
in the model. -/
def storage_path : String := "files"

/-- `compute_storage_stats` of `storage_operations.rs`: scan the storage
directory, summing sizes and counting plain files. -/
def compute_storage_stats (entries : List DirEntry) : StorageStats :=
  { path := storage_path
    total_bytes := (entries.filter (fun e => e.is_file)).foldl (fun a e => a + e.size) 0
    file_count := (entries.filter (fun e => e.is_file)).length }

/-- The deletion loop of `clear_processed_files`: visit the directory entries
in order, removing each (`fs::remove_file` for files, `fs::remove_dir_all` for
directories); the `?` operator propagates the first failure, so the loop stops
there.  Returns the entries still present afterwards, the number of
successful deletions, and the error of the failing deletion, if any. -/
def sweepEntries : List DirEntry → List DirEntry × Nat × Option String
  | [] => ([], 0, none)
  | e :: rest =>
    if e.removable then
      let r := sweepEntries rest
      (r.1, r.2.1 + 1, r.2.2)
    else
      (e :: rest, 0, some ("failed to remove " ++ e.name))

/-- `clear_processed_files` of `storage_operations.rs`: delete every entry of
the storage directory (aborting on the first failure), then recompute the
storage statistics.  The database (tasks, File Index rows, statuses) is never
consulted.  Returns the new state, the number of deletions performed, and the
command result. -/
def clear_processed_files (st : AppState) :
    AppState × Nat × Except String StorageStats :=
  match sweepEntries st.storage with
  | (rem, n, some m) => ({ st with storage := rem }, n, Except.error m)
  | (rem, n, none) => ({ st with storage := rem }, n, Except.ok (compute_storage_stats rem))

/-- A concrete persistent state matching the spec's own test vector for the
garbage collector: unit `B` is active (`Processing`) and references file `2`,
whose stored file `2.pdf` is present in the Content Store. -/
def gcExampleState : AppState :=
  { storage := [{ name := "2.pdf", size := 100, is_file := true, removable := true }]
    tasks := [{ id := 1, name := "B", status := "Processing"
                files_associated := ["2"], file_count := 1 }]
    filesDb := [{ id := "2", hash_sha256 := "h2", file_name := "b.pdf"
                  stored_path := "files/2.pdf", size_bytes := 100
                  parsed_details := none }] }

/-- If the sweep finished without an error, every entry was removed. -/
theorem sweepEntries_ok_nil (l : List DirEntry)
    (h : (sweepEntries l).2.2 = none) : (sweepEntries l).1 = [] := by
  induction l with
  | nil => simp [sweepEntries]
  | cons e rest ih =>
    by_cases he : e.removable
    · simp only [sweepEntries, he, if_true] at h ⊢
      exact ih h
    · simp [sweepEntries, he] at h

/-- C1: the spec requires that a stored file referenced by an active unit of
work is never deleted by the storage-reclaim operation.  The code deletes
every entry of the Content Store directory unconditionally: in
`gcExampleState`, file `2.pdf` is referenced by the active unit `B`, yet
`clear_processed_files` removes it (and leaves the File Index row dangling),
performing one deletion and reporting empty storage. -/
theorem clear_processed_files_deletes_active_referenced_file :
    clear_processed_files gcExampleState =
      ({ gcExampleState with storage := [] }, 1,
        Except.ok { path := storage_path, total_bytes := 0, file_count := 0 }) := by
  rfl

/-- C5: the storage-reclaim operation is idempotent.  If one call succeeds,
a second call on the resulting state performs zero deletions and returns the
same `StorageStats` (the first call empties the directory, so the second scans
an empty directory). -/
theorem clear_processed_files_idempotent (st st1 : AppState) (n : Nat)
    (stats : StorageStats)
    (h : clear_processed_files st = (st1, n, Except.ok stats)) :
    clear_processed_files st1 = (st1, 0, Except.ok stats) := by
  unfold clear_processed_files at h
  rcases hs : sweepEntries st.storage with ⟨rem, k, err⟩
  rw [hs] at h
  cases err with
  | some m => simp at h
  | none =>
    have hrem : rem = [] := by
      have := sweepEntries_ok_nil st.storage (by rw [hs])
      rw [hs] at this
      exact this
    subst hrem
    simp only [Prod.mk.injEq, Except.ok.injEq] at h
    obtain ⟨h1, _, h3⟩ := h
    subst h1
    subst h3
    unfold clear_processed_files
    simp [sweepEntries]

/-- Witness for C5 at a concrete state with one removable stored file. -/
theorem clear_processed_files_idempotent_witness :
    clear_processed_files
        { storage := [{ name := "a.pdf", size := 5, is_file := true, removable := true }]
          tasks := [], filesDb := [] } =
      ({ storage := [], tasks := [], filesDb := [] }, 1,
        Except.ok { path := storage_path, total_bytes := 0, file_count := 0 }) ∧
    clear_processed_files { storage := [], tasks := [], filesDb := [] } =
      ({ storage := [], tasks := [], filesDb := [] }, 0,
        Except.ok { path := storage_path, total_bytes := 0, file_count := 0 }) :=
  ⟨rfl,
    clear_processed_files_idempotent
      { storage := [{ name := "a.pdf", size := 5, is_file := true, removable := true }]
        tasks := [], filesDb := [] }
      { storage := [], tasks := [], filesDb := [] } 1
      { path := storage_path, total_bytes := 0, file_count := 0 } rfl⟩

/-- A storage directory with three files where removing `b` fails:
`a` is deleted first, then the sweep hits the failure on `b`. -/
def sweepFailState : AppState :=
  { storage :=
      [{ name := "a", size := 1, is_file := true, removable := true },
        { name := "b", size := 2, is_file := true, removable := false },
        { name := "c", size := 3, is_file := true, removable := true }]
    tasks := [], filesDb := [] }

/-- C9 counterexample: the spec says a failure deleting one entry must not
abort the sweep for the remaining entries.  In the code the `?` operator
aborts the loop at the first failure: on `sweepFailState`, removing `b`
fails and the (removable) entry `c` is never attempted — it is still present
afterwards, and the whole command returns the error.  Deletion of `a`,
performed before the failure, is not rolled back. -/
theorem clear_processed_files_abort_counterexample :
    clear_processed_files sweepFailState =
      ({ sweepFailState with storage :=
          [{ name := "b", size := 2, is_file := true, removable := false },
            { name := "c", size := 3, is_file := true, removable := true }] },
        1, Except.error "failed to remove b") := by
  rfl

/-- C9 amended: during one storage-reclaim sweep, the first deletion failure
aborts the sweep.  Entries deleted before the failure stay deleted (no
rollback), the failing entry and every entry after it are left untouched,
and the failure is reported to the caller as the command's error. -/
theorem clear_processed_files_abort_on_failure (st : AppState)
    (pre post : List DirEntry) (e : DirEntry)
    (hstorage : st.storage = pre ++ e :: post)
    (hpre : pre.all (fun d => d.removable) = true)
    (he : e.removable = false) :
    clear_processed_files st =
      ({ st with storage := e :: post }, pre.length,
        Except.error ("failed to remove " ++ e.name)) := by
  have hsweep : ∀ l : List DirEntry, l.all (fun d => d.removable) = true →
      sweepEntries (l ++ e :: post) =
        (e :: post, l.length, some ("failed to remove " ++ e.name)) := by
    intro l hl
    induction l with
    | nil => simp [sweepEntries, he]
    | cons d rest ih =>
      simp only [List.all_cons, Bool.and_eq_true] at hl
      simp [sweepEntries, hl.1, ih hl.2, Nat.add_comm]
  unfold clear_processed_files
  rw [hstorage, hsweep pre hpre]

/-- Witness for C9 amended at `sweepFailState`. -/
theorem clear_processed_files_abort_on_failure_witness :
    sweepFailState.storage =
        [{ name := "a", size := 1, is_file := true, removable := true }] ++
          { name := "b", size := 2, is_file := true, removable := false } ::
            [{ name := "c", size := 3, is_file := true, removable := true }] ∧
      clear_processed_files sweepFailState =
        ({ sweepFailState with storage :=
            [{ name := "b", size := 2, is_file := true, removable := false },
              { name := "c", size := 3, is_file := true, removable := true }] },
          1, Except.error "failed to remove b") :=
  ⟨rfl,
    clear_processed_files_abort_on_failure sweepFailState
      [{ name := "a", size := 1, is_file := true, removable := true }]
      [{ name := "c", size := 3, is_file := true, removable := true }]
      { name := "b", size := 2, is_file := true, removable := false }
      rfl rfl rfl⟩

/-! ## Content Store + dedup ingestion (`persist_buffer`, `file_operations.rs`) -/

/-- The Content Store viewed as a map from stored paths to byte contents. -/
abbrev Disk := List (String × List Nat)

/-- The characters after the last occurrence of `sep`, when `sep` occurs. -/
def splitLast (sep : Char) : List Char → Option (List Char)
  | [] => none
  | c :: cs =>
    match splitLast sep cs with
    | some e => some e
    | none => if c == sep then some cs else none

/-- `Path::new(file_name).extension().and_then(to_str).unwrap_or("")`:
the text after the last `.` of the final path component; empty when the
component has no `.` or only a leading one. -/
def fileExtension (file_name : String) : String :=
  match (splitLast '/' file_name.toList).getD file_name.toList with
  | [] => ""
  | _ :: rest =>
    match splitLast '.' rest with
    | some e => String.mk e
    | none => ""

/-- The stored path derived in `persist_buffer`: the storage directory joined
with the fresh id plus the original extension, when present. -/
def storedPathOf (id file_name : String) : String :=
  let ext := fileExtension file_name
  if ext.isEmpty then storage_path ++ "/" ++ id
  else storage_path ++ "/" ++ id ++ "." ++ ext

/-- `fs::write`: create the file or truncate an existing one — the path now
maps to exactly `buffer`, other paths are untouched. -/
def diskWrite (d : Disk) (p : String) (b : List Nat) : Disk :=
  d.filter (fun e => !(e.fst == p)) ++ [(p, b)]

/-- Read the content stored at path `p`, if any. -/
def diskLookup (d : Disk) (p : String) : Option (List Nat) :=
  match d.find? (fun e => e.fst == p) with
  | some e => some e.snd
  | none => none

/-- `Path::exists` for the Content Store model. -/
def diskHas (d : Disk) (p : String) : Bool :=
  d.any (fun e => e.fst == p)

/-- The persistent state touched by ingestion: the `files` table and the
Content Store. -/
structure IngestState where
  files : List FileRowDb
  disk : Disk
deriving DecidableEq

/-- `SELECT id FROM files WHERE hash_sha256 = ?1 LIMIT 1`. -/
def findByHash (files : List FileRowDb) (h : String) : Option FileRowDb :=
  files.find? (fun r => r.hash_sha256 == h)

/-- `INSERT INTO files ...` under the schema's `UNIQUE` constraint on
`hash_sha256` and the `id` primary key: the insert fails with a constraint
error when a row with the same hash (or id) already exists. -/
def dbInsertFile (files : List FileRowDb) (r : FileRowDb) :
    Except String (List FileRowDb) :=
  if files.any (fun q => q.hash_sha256 == r.hash_sha256) then
    Except.error "UNIQUE constraint failed: files.hash_sha256"
  else if files.any (fun q => q.id == r.id) then
    Except.error "UNIQUE constraint failed: files.id"
  else Except.ok (files ++ [r])

/-- The File Index row inserted by `persist_buffer` for a fresh ingestion. -/
def ingestRow (hash : List Nat → String) (file_name : String)
    (buffer : List Nat) (freshId : String) : FileRowDb :=
  { id := freshId, hash_sha256 := hash buffer, file_name := file_name
    stored_path := storedPathOf freshId file_name
    size_bytes := buffer.length, parsed_details := none }

/-- The tail of `persist_buffer` after the duplicate check missed: derive the
stored path from the fresh id, write the bytes (create-or-truncate), then
insert the File Index row; an insert error is stringified and propagated
(`map_err(..)?`) — the written file stays on disk. -/
def persistCommit (hash : List Nat → String) (st : IngestState)
    (file_name : String) (buffer : List Nat) (freshId : String) :
    IngestState × Except String String :=
  let disk1 := diskWrite st.disk (storedPathOf freshId file_name) buffer
  match dbInsertFile st.files (ingestRow hash file_name buffer freshId) with
  | Except.error e => ({ st with disk := disk1 }, Except.error e)
  | Except.ok fs1 => ({ files := fs1, disk := disk1 }, Except.ok ("OK:" ++ freshId))

/-- `persist_buffer` of `file_operations.rs` (also `commands.rs`): hash the
buffer, return `DUPLICATE:{existing}` when a row with that hash exists,
otherwise write the bytes and insert the row, returning `OK:{id}`.  The
blake3 digest and the freshly generated UUID are parameters of the model. -/
def persist_buffer (hash : List Nat → String) (st : IngestState)
    (file_name : String) (buffer : List Nat) (freshId : String) :
    IngestState × Except String String :=
  match findByHash st.files (hash buffer) with
  | some r => (st, Except.ok ("DUPLICATE:" ++ r.id))
  | none => persistCommit hash st file_name buffer freshId

/-- The §5 check-then-insert race, interleaved: caller A's duplicate check
runs against `st0` and misses, caller B then completes a full
`persist_buffer` of the same bytes, and A resumes with its commit phase
against B's state. -/
def persistRaceSecondCommit (hash : List Nat → String) (st0 : IngestState)
    (nameA nameB : String) (buffer : List Nat) (idA idB : String) :
    IngestState × Except String String :=
  match findByHash st0.files (hash buffer) with
  | some r => (st0, Except.ok ("DUPLICATE:" ++ r.id))
  | none =>
    persistCommit hash (persist_buffer hash st0 nameB buffer idB).fst
      nameA buffer idA

/-- `find?` skips a prefix in which nothing matches. -/
theorem find_append_of_none {α : Type} (p : α → Bool) (l₁ l₂ : List α)
    (h : l₁.find? p = none) : (l₁ ++ l₂).find? p = l₂.find? p := by
  induction l₁ with
  | nil => simp
  | cons a t ih =>
    by_cases hp : p a = true
    · simp [List.find?_cons_of_pos _ hp] at h
    · rw [List.find?_cons_of_neg _ hp] at h
      rw [List.cons_append, List.find?_cons_of_neg _ hp]
      exact ih h

/-- C2: sequentially ingesting the same bytes `b` twice, starting from a state
holding no row for `b`'s hash and no stored copy of `b`, yields: the first
call returns `OK:id1`; the second call leaves the state unchanged and returns
`DUPLICATE:id1` referencing the first call's id; and afterwards exactly one
File Index row with `b`'s hash and exactly one stored file with content `b`
exist. -/
theorem persist_buffer_sequential_dedup
    (hash : List Nat → String) (st0 : IngestState)
    (name1 name2 id1 id2 : String) (b : List Nat)
    (hno : findByHash st0.files (hash b) = none)
    (hid : st0.files.any (fun q => q.id == id1) = false)
    (hcontent : st0.disk.filter (fun e => e.snd == b) = []) :
    (persist_buffer hash st0 name1 b id1).snd = Except.ok ("OK:" ++ id1) ∧
      persist_buffer hash (persist_buffer hash st0 name1 b id1).fst
          name2 b id2 =
        ((persist_buffer hash st0 name1 b id1).fst,
          Except.ok ("DUPLICATE:" ++ id1)) ∧
      ((persist_buffer hash st0 name1 b id1).fst.files.filter
          (fun r => r.hash_sha256 == hash b)).length = 1 ∧
      ((persist_buffer hash st0 name1 b id1).fst.disk.filter
          (fun e => e.snd == b)).length = 1 := by
  have hno' : st0.files.find? (fun r => r.hash_sha256 == hash b) = none := hno
  have hforall : ∀ x ∈ st0.files, ¬(x.hash_sha256 == hash b) = true :=
    List.find?_eq_none.mp hno'
  have hanyhash : st0.files.any (fun q => q.hash_sha256 == hash b) = false := by
    rw [Bool.eq_false_iff]
    intro hcontra
    obtain ⟨x, hx, hpx⟩ := List.any_eq_true.mp hcontra
    exact hforall x hx hpx
  have hins : dbInsertFile st0.files (ingestRow hash name1 b id1) =
      Except.ok (st0.files ++ [ingestRow hash name1 b id1]) := by
    unfold dbInsertFile
    rw [show (ingestRow hash name1 b id1).hash_sha256 = hash b from rfl,
      show (ingestRow hash name1 b id1).id = id1 from rfl, hanyhash, hid]
    rfl
  have hrun1 : persist_buffer hash st0 name1 b id1 =
      ({ files := st0.files ++ [ingestRow hash name1 b id1],
          disk := diskWrite st0.disk (storedPathOf id1 name1) b },
        Except.ok ("OK:" ++ id1)) := by
    unfold persist_buffer
    rw [hno]
    unfold persistCommit
    rw [hins]
  have hfind2 : findByHash (st0.files ++ [ingestRow hash name1 b id1])
      (hash b) = some (ingestRow hash name1 b id1) := by
    unfold findByHash
    rw [find_append_of_none _ _ _ hno']
    simp [List.find?, ingestRow]
  have hfind2' : findByHash
      (({ files := st0.files ++ [ingestRow hash name1 b id1],
          disk := diskWrite st0.disk (storedPathOf id1 name1) b } :
            IngestState)).files (hash b) =
      some (ingestRow hash name1 b id1) := hfind2
  refine ⟨by rw [hrun1], ?_, ?_, ?_⟩
  · rw [hrun1]
    show persist_buffer hash
        ({ files := st0.files ++ [ingestRow hash name1 b id1],
            disk := diskWrite st0.disk (storedPathOf id1 name1) b })
        name2 b id2 = _
    unfold persist_buffer
    rw [hfind2']
    rfl
  · rw [hrun1]
    show (List.filter (fun r => r.hash_sha256 == hash b)
        (st0.files ++ [ingestRow hash name1 b id1])).length = 1
    have h0 : st0.files.filter (fun r => r.hash_sha256 == hash b) = [] :=
      List.filter_eq_nil_iff.mpr hforall
    simp [List.filter_append, h0, ingestRow]
  · rw [hrun1]
    show (List.filter (fun e => e.snd == b)
        (diskWrite st0.disk (storedPathOf id1 name1) b)).length = 1
    have hdiskall : ∀ e ∈ st0.disk, ¬(e.snd == b) = true :=
      List.filter_eq_nil_iff.mp hcontent
    have h1 : (st0.disk.filter
        (fun e => !(e.fst == storedPathOf id1 name1))).filter
          (fun e => e.snd == b) = [] :=
      List.filter_eq_nil_iff.mpr fun e he => hdiskall e (List.mem_of_mem_filter he)
    simp [diskWrite, List.filter_append, h1]

/-- Witness for C2: two ingestions of the bytes `[1, 2]` into the empty
state. -/
theorem persist_buffer_sequential_dedup_witness :
    findByHash ({ files := [], disk := [] } : IngestState).files
        ((fun _ => "H") [1, 2]) = none ∧
      ({ files := [], disk := [] } : IngestState).files.any
          (fun q => q.id == "i1") = false ∧
      ({ files := [], disk := [] } : IngestState).disk.filter
          (fun e => e.snd == [1, 2]) = [] ∧
      ((persist_buffer (fun _ => "H") { files := [], disk := [] }
          "a.pdf" [1, 2] "i1").snd = Except.ok ("OK:" ++ "i1") ∧
        persist_buffer (fun _ => "H")
            (persist_buffer (fun _ => "H") { files := [], disk := [] }
              "a.pdf" [1, 2] "i1").fst "b.pdf" [1, 2] "i2" =
          ((persist_buffer (fun _ => "H") { files := [], disk := [] }
              "a.pdf" [1, 2] "i1").fst,
            Except.ok ("DUPLICATE:" ++ "i1")) ∧
        ((persist_buffer (fun _ => "H") { files := [], disk := [] }
            "a.pdf" [1, 2] "i1").fst.files.filter
            (fun r => r.hash_sha256 == (fun _ => "H") [1, 2])).length = 1 ∧
        ((persist_buffer (fun _ => "H") { files := [], disk := [] }
            "a.pdf" [1, 2] "i1").fst.disk.filter
            (fun e => e.snd == [1, 2])).length = 1) :=
  ⟨rfl, rfl, rfl,
    persist_buffer_sequential_dedup (fun _ => "H") { files := [], disk := [] }
      "a.pdf" "b.pdf" "i1" "i2" [1, 2] rfl rfl rfl⟩

/-- If `find?` misses, `any` is false for the same predicate. -/
theorem any_eq_false_of_find_none {α : Type} (p : α → Bool) (l : List α)
    (h : l.find? p = none) : l.any p = false := by
  rw [Bool.eq_false_iff]
  intro hcontra
  obtain ⟨x, hx, hpx⟩ := List.any_eq_true.mp hcontra
  exact List.find?_eq_none.mp h x hx hpx

/-- A `persist_buffer` call whose duplicate check misses and whose fresh id is
unused appends the new row and stores the buffer at the derived path. -/
theorem persist_buffer_miss_run (hash : List Nat → String) (st : IngestState)
    (file_name : String) (b : List Nat) (freshId : String)
    (hno : findByHash st.files (hash b) = none)
    (hid : st.files.any (fun q => q.id == freshId) = false) :
    persist_buffer hash st file_name b freshId =
      ({ files := st.files ++ [ingestRow hash file_name b freshId],
          disk := diskWrite st.disk (storedPathOf freshId file_name) b },
        Except.ok ("OK:" ++ freshId)) := by
  have hanyhash : st.files.any (fun q => q.hash_sha256 == hash b) = false :=
    any_eq_false_of_find_none _ _ hno
  have hins : dbInsertFile st.files (ingestRow hash file_name b freshId) =
      Except.ok (st.files ++ [ingestRow hash file_name b freshId]) := by
    unfold dbInsertFile
    rw [show (ingestRow hash file_name b freshId).hash_sha256 = hash b from rfl,
      show (ingestRow hash file_name b freshId).id = freshId from rfl,
      hanyhash, hid]
    rfl
  unfold persist_buffer
  rw [hno]
  unfold persistCommit
  rw [hins]

/-- After `fs::write`, the written path holds exactly the written bytes. -/
theorem diskLookup_diskWrite_self (d : Disk) (p : String) (b : List Nat) :
    diskLookup (diskWrite d p b) p = some b := by
  have hnone : (d.filter (fun e => !(e.fst == p))).find?
      (fun e => e.fst == p) = none := by
    apply List.find?_eq_none.mpr
    intro e he
    have h1 := List.of_mem_filter he
    simp only [Bool.not_eq_true'] at h1
    simp [h1]
  unfold diskLookup diskWrite
  rw [find_append_of_none _ _ _ hnone]
  simp [List.find?]

/-- C3 counterexample: the spec requires a uniqueness-constraint violation on
the row insert to be retried as a lookup and answered as a duplicate.  In the
§5 interleaving — caller A's duplicate check misses on the empty state, caller
B then ingests the same bytes, and A resumes its commit — A's insert hits the
`hash_sha256` unique constraint and `persist_buffer`'s commit phase returns
the stringified constraint error, not a `DUPLICATE:` result. -/
theorem persist_buffer_race_counterexample :
    (persistRaceSecondCommit (fun _ => "H") { files := [], disk := [] }
        "a.pdf" "b.pdf" [1, 2] "idA" "idB").snd =
      Except.error "UNIQUE constraint failed: files.hash_sha256" := by
  rfl

/-- C3 amended: when the row insert inside `persist_buffer` fails on the
`hash_sha256` unique constraint (a row with the buffer's hash already exists
at insert time), the error is propagated to the caller as a hard error —
no retry lookup is performed and no duplicate result is returned. -/
theorem persistCommit_constraint_violation_hard_error
    (hash : List Nat → String) (st : IngestState) (file_name : String)
    (b : List Nat) (freshId : String)
    (hdup : st.files.any (fun q => q.hash_sha256 == hash b) = true) :
    (persistCommit hash st file_name b freshId).snd =
      Except.error "UNIQUE constraint failed: files.hash_sha256" := by
  have hins : dbInsertFile st.files (ingestRow hash file_name b freshId) =
      Except.error "UNIQUE constraint failed: files.hash_sha256" := by
    unfold dbInsertFile
    rw [show (ingestRow hash file_name b freshId).hash_sha256 = hash b from rfl,
      hdup]
    rfl
  unfold persistCommit
  rw [hins]

/-- The state left behind by the race's winning ingestion: one row whose
hash is the digest of the contested bytes. -/
def raceWinnerState : IngestState :=
  { files := [{ id := "idB", hash_sha256 := "H", file_name := "b.pdf"
                stored_path := "files/idB.pdf", size_bytes := 2
                parsed_details := none }]
    disk := [] }

/-- Witness for C3 amended: committing over a state already holding a row
with the buffer's hash. -/
theorem persistCommit_constraint_violation_hard_error_witness :
    raceWinnerState.files.any
        (fun q => q.hash_sha256 == (fun _ => "H") [1, 2]) = true ∧
      (persistCommit (fun _ => "H") raceWinnerState "a.pdf" [1, 2]
          "idA").snd =
        Except.error "UNIQUE constraint failed: files.hash_sha256" :=
  ⟨rfl,
    persistCommit_constraint_violation_hard_error (fun _ => "H")
      raceWinnerState "a.pdf" [1, 2] "idA" rfl⟩

/-- A Content Store that already holds a (partial or stale) file at the very
path a fresh ingestion will derive. -/
def overwriteExampleState : IngestState :=
  { files := [], disk := [("files/idA.pdf", [9, 9])] }

/-- C6 counterexample: the spec says writing the incoming bytes must fail if a
file already exists at the derived `storedPath`.  `fs::write` creates or
truncates: on `overwriteExampleState`, where `files/idA.pdf` already holds
bytes `[9, 9]`, the ingestion succeeds with `OK:idA` and the old content is
silently replaced by the new buffer `[1]`. -/
theorem persist_buffer_overwrite_counterexample :
    persist_buffer (fun _ => "H") overwriteExampleState "a.pdf" [1] "idA" =
      ({ files := [ingestRow (fun _ => "H") "a.pdf" [1] "idA"],
          disk := [("files/idA.pdf", [1])] },
        Except.ok ("OK:" ++ "idA")) := by
  rfl

/-- C6 amended: for a non-duplicate ingestion whose derived `storedPath`
already exists on disk, `persist_buffer` does not fail: it returns `OK:{id}`
and the Content Store afterwards maps that path to the incoming bytes —
the prior content is silently overwritten. -/
theorem persist_buffer_silently_overwrites
    (hash : List Nat → String) (st : IngestState) (file_name : String)
    (b : List Nat) (freshId : String)
    (hno : findByHash st.files (hash b) = none)
    (hid : st.files.any (fun q => q.id == freshId) = false)
    (hexist : diskHas st.disk (storedPathOf freshId file_name) = true) :
    (persist_buffer hash st file_name b freshId).snd =
        Except.ok ("OK:" ++ freshId) ∧
      diskLookup (persist_buffer hash st file_name b freshId).fst.disk
          (storedPathOf freshId file_name) = some b := by
  have hrun := persist_buffer_miss_run hash st file_name b freshId hno hid
  constructor
  · rw [hrun]
  · rw [hrun]
    show diskLookup (diskWrite st.disk (storedPathOf freshId file_name) b)
        (storedPathOf freshId file_name) = some b
    exact diskLookup_diskWrite_self _ _ _

/-- Witness for C6 amended at `overwriteExampleState`. -/
theorem persist_buffer_silently_overwrites_witness :
    findByHash overwriteExampleState.files ((fun _ => "H") [1]) = none ∧
      overwriteExampleState.files.any (fun q => q.id == "idA") = false ∧
      diskHas overwriteExampleState.disk (storedPathOf "idA" "a.pdf") = true ∧
      ((persist_buffer (fun _ => "H") overwriteExampleState "a.pdf" [1]
            "idA").snd = Except.ok ("OK:" ++ "idA") ∧
        diskLookup (persist_buffer (fun _ => "H") overwriteExampleState
            "a.pdf" [1] "idA").fst.disk (storedPathOf "idA" "a.pdf") =
          some [1]) :=
  ⟨rfl, rfl, rfl,
    persist_buffer_silently_overwrites (fun _ => "H") overwriteExampleState
      "a.pdf" [1] "idA" rfl rfl rfl⟩

/-! ## Dataset Accumulator (`append_sheet_rows`, `commands.rs`) -/

/-- `SheetRowInput` of `commands.rs`: one incoming dataset row. -/
structure SheetRowInput where
  file_id : Option String
  file_name : Option String
  seller_name : Option String
  invoice_number : Option String
  invoice_date : Option String
  seller_address : Option String
  items_json : Option String
  raw_payload : String
deriving DecidableEq

/-- `SheetCsvRow` of `commands.rs`: one record of the dataset's backing CSV
file. -/
structure SheetCsvRow where
  sheet_id : Int
  file_id : Option String
  file_name : Option String
  seller_name : Option String
  invoice_number : Option String
  invoice_date : Option String
  seller_address : Option String
  items_json : Option String
  raw_payload : String
deriving DecidableEq

/-- The `SheetCsvRow` built from one incoming row inside the append loop. -/
def toCsvRow (sheet_id : Int) (r : SheetRowInput) : SheetCsvRow :=
  { sheet_id := sheet_id, file_id := r.file_id, file_name := r.file_name,
    seller_name := r.seller_name, invoice_number := r.invoice_number,
    invoice_date := r.invoice_date, seller_address := r.seller_address,
    items_json := r.items_json, raw_payload := r.raw_payload }

/-- `dedupe_ids`: the `file_id`s present in the incoming rows (rows without
one are ignored). -/
def dedupeIds (rows : List SheetRowInput) : List String :=
  rows.filterMap (fun r => r.file_id)

/-- The file-content transformation performed by `append_sheet_rows`: on
empty input return immediately without touching the file; otherwise drop
every existing row whose `file_id` occurs among the incoming rows' ids
(`retain`), keep rows without a `file_id`, and append all incoming rows in
arrival order. -/
def append_sheet_rows_merge (sheet_id : Int) (existing : List SheetCsvRow)
    (rows : List SheetRowInput) : List SheetCsvRow :=
  if rows.isEmpty then existing
  else
    (existing.filter (fun row =>
      match row.file_id with
      | some id => !((dedupeIds rows).contains id)
      | none => true)) ++ rows.map (toCsvRow sheet_id)

/-- An inner filter is redundant when the outer predicate implies it. -/
theorem filter_filter_of_imp {α : Type} (p q : α → Bool) (l : List α)
    (h : ∀ a, p a = true → q a = true) : (l.filter q).filter p = l.filter p := by
  induction l with
  | nil => rfl
  | cons a t ih =>
    by_cases hq : q a = true
    · by_cases hp : p a = true <;> simp [List.filter_cons, hq, hp, ih]
    · have hp : p a = false := by
        cases hpa : p a
        · rfl
        · exact absurd (h a hpa) hq
      simp [List.filter_cons, hq, hp, ih]

/-- C4: after two `append_sheet_rows` calls on the same dataset whose row
sets share the `file_id` `f` — the second call carrying exactly one row `r2`
for `f` — the backing file holds exactly one row for `f`, namely `r2`'s
values; and the rows without a `file_id` that existed before the second call
are all retained, followed by the second call's rows without a `file_id`
(free-form rows are never deduplicated). -/
theorem append_sheet_rows_replace_on_resubmit (sheet_id : Int)
    (s0 : List SheetCsvRow) (call1 call2 : List SheetRowInput)
    (f : String) (r2 : SheetRowInput)
    (hshared : f ∈ dedupeIds call1)
    (hone : call2.filter (fun r => r.file_id == some f) = [r2]) :
    (append_sheet_rows_merge sheet_id
          (append_sheet_rows_merge sheet_id s0 call1) call2).filter
        (fun row => row.file_id == some f) = [toCsvRow sheet_id r2] ∧
      (append_sheet_rows_merge sheet_id
          (append_sheet_rows_merge sheet_id s0 call1) call2).filter
        (fun row => row.file_id == none) =
        (append_sheet_rows_merge sheet_id s0 call1).filter
            (fun row => row.file_id == none) ++
          (call2.filter (fun r => r.file_id == none)).map
            (toCsvRow sheet_id) := by
  have hr2mem : r2 ∈ call2.filter (fun r => r.file_id == some f) := by
    rw [hone]; exact List.mem_singleton.mpr rfl
  have hr2in : r2 ∈ call2 := List.mem_of_mem_filter hr2mem
  have hr2id : r2.file_id = some f := by
    have := List.of_mem_filter hr2mem
    exact eq_of_beq this
  have hne : call2.isEmpty = false := by
    cases call2 with
    | nil => simp at hone
    | cons a t => rfl
  have hfmem : f ∈ dedupeIds call2 :=
    List.mem_filterMap.mpr ⟨r2, hr2in, hr2id⟩
  have hcont : (dedupeIds call2).contains f = true := by
    exact List.elem_eq_true_of_mem hfmem
  set s1 := append_sheet_rows_merge sheet_id s0 call1 with hs1
  have hmerge2 : append_sheet_rows_merge sheet_id s1 call2 =
      (s1.filter (fun row =>
        match row.file_id with
        | some id => !((dedupeIds call2).contains id)
        | none => true)) ++ call2.map (toCsvRow sheet_id) := by
    unfold append_sheet_rows_merge
    rw [hne]
    rfl
  constructor
  · rw [hmerge2, List.filter_append]
    have hleft : (s1.filter (fun row =>
        match row.file_id with
        | some id => !((dedupeIds call2).contains id)
        | none => true)).filter (fun row => row.file_id == some f) = [] := by
      apply List.filter_eq_nil_iff.mpr
      intro row hrow hbeq
      have hrowid : row.file_id = some f := eq_of_beq hbeq
      have hret := List.of_mem_filter hrow
      rw [hrowid] at hret
      simp only [hcont, Bool.not_true] at hret
      exact Bool.false_ne_true hret
    have hright : (call2.map (toCsvRow sheet_id)).filter
        (fun row => row.file_id == some f) =
        (call2.filter (fun r => r.file_id == some f)).map
          (toCsvRow sheet_id) := by
      rw [List.filter_map]
      rfl
    rw [hleft, hright, hone]
    rfl
  · rw [hmerge2, List.filter_append]
    have hleft : (s1.filter (fun row =>
        match row.file_id with
        | some id => !((dedupeIds call2).contains id)
        | none => true)).filter (fun row => row.file_id == none) =
        s1.filter (fun row => row.file_id == none) := by
      apply filter_filter_of_imp
      intro row hp
      have : row.file_id = none := by
        cases hfi : row.file_id with
        | none => rfl
        | some v => rw [hfi] at hp; exact absurd hp (by simp)
      rw [this]
    have hright : (call2.map (toCsvRow sheet_id)).filter
        (fun row => row.file_id == none) =
        (call2.filter (fun r => r.file_id == none)).map
          (toCsvRow sheet_id) := by
      rw [List.filter_map]
      rfl
    rw [hleft, hright]

/-- The first submission of file `f` in the C4 witness. -/
def sampleInput1 : SheetRowInput :=
  { file_id := some "f", file_name := none, seller_name := none,
    invoice_number := none, invoice_date := none, seller_address := none,
    items_json := none, raw_payload := "p1" }

/-- The re-submission of file `f` with new values in the C4 witness. -/
def sampleInput2 : SheetRowInput :=
  { file_id := some "f", file_name := none, seller_name := none,
    invoice_number := none, invoice_date := none, seller_address := none,
    items_json := none, raw_payload := "p2" }

/-- Witness for C4: submitting file `f` and then re-submitting it with new
values, starting from an empty backing file. -/
theorem append_sheet_rows_replace_on_resubmit_witness :
    "f" ∈ dedupeIds [sampleInput1] ∧
      [sampleInput2].filter (fun r => r.file_id == some "f") =
        [sampleInput2] ∧
      ((append_sheet_rows_merge 7
            (append_sheet_rows_merge 7 [] [sampleInput1])
            [sampleInput2]).filter
          (fun row => row.file_id == some "f") =
          [toCsvRow 7 sampleInput2] ∧
        (append_sheet_rows_merge 7
            (append_sheet_rows_merge 7 [] [sampleInput1])
            [sampleInput2]).filter
          (fun row => row.file_id == none) =
          (append_sheet_rows_merge 7 [] [sampleInput1]).filter
              (fun row => row.file_id == none) ++
            ([sampleInput2].filter (fun r => r.file_id == none)).map
              (toCsvRow 7)) :=
  ⟨by decide, by decide,
    append_sheet_rows_replace_on_resubmit 7 [] [sampleInput1] [sampleInput2]
      "f" sampleInput2 (by decide) (by decide)⟩

/-! ## Export Generator: tabular export (`generate_sheet_xlsx`, `commands.rs`) -/

/-- `SheetMeta` of `commands.rs`: one row of the `sheets` table. -/
structure SheetMeta where
  id : Int
  sheet_name : String
  sheet_path : String
  sheet_file_path : Option String
  file_ids : List String
deriving DecidableEq

/-- The persistent state read by the tabular export: the `sheets` table plus
the dataset backing files on disk. -/
structure SheetState where
  sheets : List SheetMeta
  csvFiles : List (String × List SheetCsvRow)
deriving DecidableEq

/-- `sanitize_file_name` of `commands.rs`: keep ASCII alphanumerics
lowercased, collapse runs of ASCII whitespace and of `-`, `_`, `.` to a
single dash, drop every other character, trim dashes at both ends, and fall
back to `fallback` when nothing remains. -/
def sanitize_file_name (value fallback : String) : String :=
  let isSep : Char → Bool := fun ch =>
    ch == ' ' || ch == '\t' || ch == '\n' || ch == Char.ofNat 12 ||
      ch == '\r' || ch == '-' || ch == '_' || ch == '.'
  let step : List Char × Bool → Char → List Char × Bool := fun acc ch =>
    if ch.isAlphanum then (acc.1 ++ [ch.toLower], false)
    else if isSep ch then
      if acc.2 then acc else (acc.1 ++ ['-'], true)
    else acc
  let folded := value.toList.foldl step ([], false)
  let trimmed :=
    ((folded.1.dropWhile (fun c => c == '-')).reverse.dropWhile
      (fun c => c == '-')).reverse
  if trimmed.isEmpty then fallback else String.mk trimmed

/-- `load_sheet_metadata`: fetch the sheet row by id, or fail. -/
def load_sheet_metadata (sheets : List SheetMeta) (sheet_id : Int) :
    Except String SheetMeta :=
  match sheets.find? (fun s => s.id == sheet_id) with
  | some s => Except.ok s
  | none => Except.error "Sheet not found."

/-- `read_sheet_csv`: the rows of the backing file, empty when the file does
not exist. -/
def read_sheet_csv (csvFiles : List (String × List SheetCsvRow))
    (path : String) : List SheetCsvRow :=
  match csvFiles.find? (fun e => e.fst == path) with
  | some e => e.snd
  | none => []

/-- `Path::exists` for a dataset backing file. -/
def csvFileHas (csvFiles : List (String × List SheetCsvRow))
    (path : String) : Bool :=
  csvFiles.any (fun e => e.fst == path)

/-- The platform's Downloads directory (`dirs::download_dir()`), an opaque
constant in the model. -/
def downloads_dir : String := "downloads"

/-- `generate_sheet_xlsx` of `commands.rs`: load the sheet's metadata, fail
when there is no stored data path, when the backing file is missing, or when
it holds zero rows; otherwise render the workbook into the Downloads
directory under the sanitized sheet name and return its path and row count.
The second component lists the artifact paths written to disk. -/
def generate_sheet_xlsx (st : SheetState) (sheet_id : Int) :
    Except String (String × Nat) × List String :=
  match load_sheet_metadata st.sheets sheet_id with
  | Except.error e => (Except.error e, [])
  | Except.ok sheet =>
    match sheet.sheet_file_path with
    | none =>
      (Except.error
        "This sheet does not have any stored data yet. Process files before downloading.",
        [])
    | some csv_path =>
      if csvFileHas st.csvFiles csv_path then
        let rows := read_sheet_csv st.csvFiles csv_path
        if rows.isEmpty then
          (Except.error "No rows found for this sheet.", [])
        else
          let fallback := "sheet-" ++ toString sheet.id
          let xlsx_path := downloads_dir ++ "/" ++
            sanitize_file_name sheet.sheet_name fallback ++ ".xlsx"
          (Except.ok (xlsx_path, rows.length), [xlsx_path])
      else
        (Except.error
          "The stored sheet data could not be located. Try processing files again.",
          [])

/-- C7: for a dataset whose backing file exists but holds zero rows, the
tabular export fails with a non-empty error message and writes no artifact
to the Downloads location. -/
theorem generate_sheet_xlsx_empty_dataset_fails (st : SheetState)
    (sheet_id : Int) (sheet : SheetMeta) (p : String)
    (hfind : st.sheets.find? (fun s => s.id == sheet_id) = some sheet)
    (hpath : sheet.sheet_file_path = some p)
    (hfile : st.csvFiles.find? (fun e => e.fst == p) = some (p, [])) :
    generate_sheet_xlsx st sheet_id =
        (Except.error "No rows found for this sheet.", []) ∧
      "No rows found for this sheet." ≠ "" := by
  have hhas : csvFileHas st.csvFiles p = true := by
    apply List.any_eq_true.mpr
    exact ⟨(p, []), List.mem_of_find?_eq_some hfile, by simp⟩
  have hrows : read_sheet_csv st.csvFiles p = [] := by
    unfold read_sheet_csv
    rw [hfile]
  constructor
  · unfold generate_sheet_xlsx load_sheet_metadata
    rw [hfind]
    show (match sheet.sheet_file_path with
      | none =>
        ((Except.error
          "This sheet does not have any stored data yet. Process files before downloading." :
            Except String (String × Nat)),
          ([] : List String))
      | some csv_path =>
        if csvFileHas st.csvFiles csv_path then
          let rows := read_sheet_csv st.csvFiles csv_path
          if rows.isEmpty then
            (Except.error "No rows found for this sheet.", [])
          else
            let fallback := "sheet-" ++ toString sheet.id
            let xlsx_path := downloads_dir ++ "/" ++
              sanitize_file_name sheet.sheet_name fallback ++ ".xlsx"
            (Except.ok (xlsx_path, rows.length), [xlsx_path])
        else
          (Except.error
            "The stored sheet data could not be located. Try processing files again.",
            [])) =
      (Except.error "No rows found for this sheet.", [])
    rw [hpath]
    simp [hhas, hrows]
  · decide

/-- A concrete state for C7: sheet `3` has a backing file that exists and
holds zero rows. -/
def emptySheetState : SheetState :=
  { sheets := [{ id := 3, sheet_name := "My Sheet", sheet_path := "my-sheet"
                 sheet_file_path := some "files/sheets/my-sheet.csv"
                 file_ids := [] }]
    csvFiles := [("files/sheets/my-sheet.csv", [])] }

/-- Witness for C7 at `emptySheetState`. -/
theorem generate_sheet_xlsx_empty_dataset_fails_witness :
    emptySheetState.sheets.find? (fun s => s.id == 3) =
        some { id := 3, sheet_name := "My Sheet", sheet_path := "my-sheet"
               sheet_file_path := some "files/sheets/my-sheet.csv"
               file_ids := [] } ∧
      (generate_sheet_xlsx emptySheetState 3 =
          (Except.error "No rows found for this sheet.", []) ∧
        "No rows found for this sheet." ≠ "") :=
  ⟨rfl,
    generate_sheet_xlsx_empty_dataset_fails emptySheetState 3
      { id := 3, sheet_name := "My Sheet", sheet_path := "my-sheet"
        sheet_file_path := some "files/sheets/my-sheet.csv"
        file_ids := [] }
      "files/sheets/my-sheet.csv" rfl rfl rfl⟩

/-! ## Export Generator: structured-document export
(`generate_xml_file`, `xml_operations.rs`) -/

/-- One row of the `xml_files` table: the export's name and the JSON array of
referenced FileEntry ids. -/
structure XmlRecord where
  id : Int
  xml_name : String
  file_ids : List String
deriving DecidableEq

/-- The persistent state read by the structured-document export. -/
structure XmlFilesState where
  xml_files : List XmlRecord
  files : List FileRowDb
deriving DecidableEq

/-- The concatenation loop of `generate_xml_file`: append each present
`parsed_details` payload followed by a newline, counting the contributors;
files without a payload are skipped. -/
def xmlConcat : List (Option String) → String × Nat
  | [] => ("", 0)
  | some d :: rest =>
    let r := xmlConcat rest
    (d ++ "\n" ++ r.1, r.2 + 1)
  | none :: rest => xmlConcat rest

/-- `generate_xml_file` of `xml_operations.rs`: ensure the record exists,
fetch its `file_ids` and fail when the collection is empty; fetch the
referenced rows (table order), run the concatenation loop over their parsed
payloads, fail when no file contributed, and otherwise return the in-memory
content with the contributor count. -/
def generate_xml_file (st : XmlFilesState) (xml_id : Int) :
    Except String (String × Nat) :=
  match st.xml_files.find? (fun r => r.id == xml_id) with
  | none => Except.error "XML file record not found."
  | some xr =>
    if xr.file_ids.isEmpty then
      Except.error "No files associated with this XML export."
    else
      let rows := st.files.filter (fun f => xr.file_ids.contains f.id)
      let r := xmlConcat (rows.map (fun f => f.parsed_details))
      if r.2 == 0 then
        Except.error
          "None of the files have been processed yet. Process files before generating XML."
      else Except.ok r

/-- The claim's reading of the structured-document export, for refinement:
the artifact content is the concatenation of exactly the `parsedPayload`
values present among the referenced files (each followed by the newline
separator), the processed count is the number of contributing files, and
the operation fails exactly when the record is missing, the id collection is
empty, or no referenced file has a payload. -/
def generate_xml_spec (st : XmlFilesState) (xml_id : Int) :
    Except String (String × Nat) :=
  match st.xml_files.find? (fun r => r.id == xml_id) with
  | none => Except.error "XML file record not found."
  | some xr =>
    if xr.file_ids.isEmpty then
      Except.error "No files associated with this XML export."
    else
      let payloads := (st.files.filter
        (fun f => xr.file_ids.contains f.id)).filterMap
          (fun f => f.parsed_details)
      if payloads.isEmpty then
        Except.error
          "None of the files have been processed yet. Process files before generating XML."
      else
        Except.ok (String.join (payloads.map (fun d => d ++ "\n")),
          payloads.length)

/-- Folding string concatenation factors out the accumulator. -/
theorem foldl_append_str (l : List String) (a : String) :
    l.foldl (fun x y => x ++ y) a = a ++ l.foldl (fun x y => x ++ y) "" := by
  induction l generalizing a with
  | nil => simp
  | cons x t ih =>
    simp only [List.foldl_cons]
    rw [ih (a ++ x), ih ("" ++ x), String.append_assoc]
    simp

/-- `String.join` peels its head element. -/
theorem string_join_cons (s : String) (l : List String) :
    String.join (s :: l) = s ++ String.join l := by
  show List.foldl (fun x y => x ++ y) ("" ++ s) l = s ++ String.join l
  rw [foldl_append_str l ("" ++ s)]
  simp [String.join]

/-- The concatenation loop computes the joined present payloads and their
count. -/
theorem xmlConcat_eq (l : List (Option String)) :
    xmlConcat l =
      (String.join ((l.filterMap id).map (fun d => d ++ "\n")),
        (l.filterMap id).length) := by
  induction l with
  | nil => rfl
  | cons o rest ih =>
    cases o with
    | none => simpa [xmlConcat, List.filterMap_cons] using ih
    | some d =>
      simp only [xmlConcat, List.filterMap_cons, id_eq, ih, List.map_cons,
        List.length_cons, string_join_cons, String.append_assoc]

/-- C8: `generate_xml_file` coincides with the claim's reading on every
state and record id: the artifact is the concatenation of exactly the
present payloads (with newline separators), `processedCount` is the number
of contributing files, and the export fails if and only if the record is
missing, its id collection is empty, or no referenced file has a payload. -/
theorem generate_xml_file_matches_spec (st : XmlFilesState) (xml_id : Int) :
    generate_xml_file st xml_id = generate_xml_spec st xml_id := by
  unfold generate_xml_file generate_xml_spec
  cases hf : st.xml_files.find? (fun r => r.id == xml_id) with
  | none => rfl
  | some xr =>
    dsimp only
    cases hempty : xr.file_ids.isEmpty with
    | true => rfl
    | false =>
      simp only [Bool.false_eq_true, if_false]
      have hmap : ((st.files.filter
          (fun f => xr.file_ids.contains f.id)).map
            (fun f => f.parsed_details)).filterMap id =
          (st.files.filter (fun f => xr.file_ids.contains f.id)).filterMap
            (fun f => f.parsed_details) := by
        rw [List.filterMap_map]
        rfl
      rw [xmlConcat_eq, hmap]
      cases hp : (st.files.filter
          (fun f => xr.file_ids.contains f.id)).filterMap
            (fun f => f.parsed_details) with
      | nil => rfl
      | cons a t => rfl

/-! ## Bulk deletion (`delete_files`, `file_operations.rs`) -/

/-- `fs::remove_file`: drop the entry stored at the path. -/
def diskRemove (d : Disk) (p : String) : Disk :=
  d.filter (fun e => !(e.fst == p))

/-- The deletion loop of `delete_files` over the selected `(id, stored_path)`
pairs: remove the stored file only when it exists on disk, then delete the
row(s) with that id. -/
def deleteLoop :
    List (String × String) → List FileRowDb → Disk → List FileRowDb × Disk
  | [], db, dk => (db, dk)
  | ip :: rest, db, dk =>
    let dk1 := if diskHas dk ip.2 then diskRemove dk ip.2 else dk
    deleteLoop rest (db.filter (fun r => !(r.id == ip.1))) dk1

/-- `delete_files` of `file_operations.rs`: an empty id list returns
immediately; otherwise fetch `(id, stored_path)` for the rows whose id is in
the list (ids without a row are simply absent from the selection) and run
the deletion loop. -/
def delete_files (db : List FileRowDb) (disk : Disk)
    (file_ids : List String) : Except String (List FileRowDb × Disk) :=
  if file_ids.isEmpty then Except.ok (db, disk)
  else
    Except.ok (deleteLoop
      ((db.filter (fun r => file_ids.contains r.id)).map
        (fun r => (r.id, r.stored_path)))
      db disk)

/-- The deletion loop keeps exactly the rows whose id is paired with none of
the visited entries. -/
theorem deleteLoop_fst (ps : List (String × String)) (db : List FileRowDb)
    (dk : Disk) :
    (deleteLoop ps db dk).1 =
      db.filter (fun r => !(ps.any (fun ip => r.id == ip.1))) := by
  induction ps generalizing db dk with
  | nil =>
    show db = db.filter _
    symm
    apply List.filter_eq_self.mpr
    intro a _
    rfl
  | cons p rest ih =>
    show (deleteLoop rest (db.filter (fun r => !(r.id == p.1)))
        (if diskHas dk p.2 then diskRemove dk p.2 else dk)).1 = _
    rw [ih, List.filter_filter]
    apply List.filter_congr
    intro a _
    simp [List.any_cons, Bool.not_or, Bool.and_comm]

/-- C10: `delete_files` never fails and deletes exactly the rows whose id is
in the requested list: an empty list is a no-op returning success; ids with
no File Index row are silently skipped (they select nothing); and a row is
deleted whether or not its stored file is present on disk, since the disk
removal is guarded by an existence check. -/
theorem delete_files_skips_missing_and_tolerates_absent
    (db : List FileRowDb) (disk : Disk) (file_ids : List String) :
    delete_files db disk [] = Except.ok (db, disk) ∧
      ∃ disk1, delete_files db disk file_ids =
        Except.ok (db.filter (fun r => !(file_ids.contains r.id)), disk1) := by
  constructor
  · rfl
  · cases file_ids with
    | nil =>
      refine ⟨disk, ?_⟩
      show Except.ok (db, disk) = _
      have hall : db.filter (fun r => !(List.contains [] r.id)) = db :=
        List.filter_eq_self.mpr (fun a _ => rfl)
      rw [hall]
    | cons i is =>
      refine ⟨(deleteLoop
        ((db.filter (fun r => (i :: is).contains r.id)).map
          (fun r => (r.id, r.stored_path))) db disk).2, ?_⟩
      have hfst : (deleteLoop
          ((db.filter (fun r => (i :: is).contains r.id)).map
            (fun r => (r.id, r.stored_path))) db disk).1 =
          db.filter (fun r => !((i :: is).contains r.id)) := by
        rw [deleteLoop_fst]
        apply List.filter_congr
        intro a ha
        congr 1
        cases hc : (i :: is).contains a.id with
        | true =>
          apply List.any_eq_true.mpr
          refine ⟨(a.id, a.stored_path), ?_, by simp⟩
          exact List.mem_map.mpr
            ⟨a, List.mem_filter.mpr ⟨ha, hc⟩, rfl⟩
        | false =>
          apply Bool.eq_false_iff.mpr
          intro hcontra
          obtain ⟨ip, hipmem, hipid⟩ := List.any_eq_true.mp hcontra
          obtain ⟨r, hrmem, hrip⟩ := List.mem_map.mp hipmem
          have hrc : (i :: is).contains r.id = true :=
            (List.mem_filter.mp hrmem).2
          have : a.id = ip.1 := eq_of_beq hipid
          rw [← hrip] at this
          rw [show a.id = r.id from this] at hc
          rw [hrc] at hc
          simp at hc
      show Except.ok (deleteLoop
          ((db.filter (fun r => (i :: is).contains r.id)).map
            (fun r => (r.id, r.stored_path))) db disk) = _
      rw [← hfst]

end InvoxAI
